import Mathlib

/-!
Shallow embedding of the protocol core of the `serverless-mcp` repository
(`src/core/protocol.ts`, `src/core/errors.ts`, `src/core/server.ts`) and
proofs of the frozen specification claims about it.

The protocol core is a JSON-RPC 2.0 dispatcher: it classifies inbound
messages into Request / Response / Notification, validates them against
zod schemas, routes requests to registered handlers, correlates inbound
responses with pending outbound requests by id, and wraps handler results
and failures into responses.  Messages, params, results and error data are
untyped JSON values; we embed them as an algebraic `Json` type.  Promise
settlement (resolve / reject of a pending request's future) and local
logging are embedded as an explicit event list so that theorems can speak
about which future was settled with which value.
-/

namespace SMCP

/-- JSON-like structured value used for ids, params, results and error data
(the source types these as `unknown`). -/
inductive Json where
  | null
  | bool (b : Bool)
  | num (n : Int)
  | str (s : String)
  | arr (elems : List Json)
  | obj (fields : List (String × Json))

mutual

/-- Decidable equality for `Json` (written by hand because the inductive nests
`Json` inside `List`). -/
def Json.decEq : (a b : Json) → Decidable (a = b)
  | .null, .null => .isTrue rfl
  | .null, .bool _ => .isFalse nofun
  | .null, .num _ => .isFalse nofun
  | .null, .str _ => .isFalse nofun
  | .null, .arr _ => .isFalse nofun
  | .null, .obj _ => .isFalse nofun
  | .bool _, .null => .isFalse nofun
  | .bool a, .bool b =>
    if h : a = b then .isTrue (by rw [h]) else .isFalse (fun hh => by cases hh; exact h rfl)
  | .bool _, .num _ => .isFalse nofun
  | .bool _, .str _ => .isFalse nofun
  | .bool _, .arr _ => .isFalse nofun
  | .bool _, .obj _ => .isFalse nofun
  | .num _, .null => .isFalse nofun
  | .num _, .bool _ => .isFalse nofun
  | .num a, .num b =>
    if h : a = b then .isTrue (by rw [h]) else .isFalse (fun hh => by cases hh; exact h rfl)
  | .num _, .str _ => .isFalse nofun
  | .num _, .arr _ => .isFalse nofun
  | .num _, .obj _ => .isFalse nofun
  | .str _, .null => .isFalse nofun
  | .str _, .bool _ => .isFalse nofun
  | .str _, .num _ => .isFalse nofun
  | .str a, .str b =>
    if h : a = b then .isTrue (by rw [h]) else .isFalse (fun hh => by cases hh; exact h rfl)
  | .str _, .arr _ => .isFalse nofun
  | .str _, .obj _ => .isFalse nofun
  | .arr _, .null => .isFalse nofun
  | .arr _, .bool _ => .isFalse nofun
  | .arr _, .num _ => .isFalse nofun
  | .arr _, .str _ => .isFalse nofun
  | .arr xs, .arr ys =>
    match Json.decEqList xs ys with
    | .isTrue h => .isTrue (by rw [h])
    | .isFalse h => .isFalse (fun hh => by cases hh; exact h rfl)
  | .arr _, .obj _ => .isFalse nofun
  | .obj _, .null => .isFalse nofun
  | .obj _, .bool _ => .isFalse nofun
  | .obj _, .num _ => .isFalse nofun
  | .obj _, .str _ => .isFalse nofun
  | .obj _, .arr _ => .isFalse nofun
  | .obj xs, .obj ys =>
    match Json.decEqFields xs ys with
    | .isTrue h => .isTrue (by rw [h])
    | .isFalse h => .isFalse (fun hh => by cases hh; exact h rfl)

/-- Decidable equality for lists of `Json` values. -/
def Json.decEqList : (as bs : List Json) → Decidable (as = bs)
  | [], [] => .isTrue rfl
  | [], _ :: _ => .isFalse nofun
  | _ :: _, [] => .isFalse nofun
  | a :: as, b :: bs =>
    match Json.decEq a b with
    | .isFalse h => .isFalse (fun hh => by cases hh; exact h rfl)
    | .isTrue h1 =>
      match Json.decEqList as bs with
      | .isTrue h2 => .isTrue (by rw [h1, h2])
      | .isFalse h => .isFalse (fun hh => by cases hh; exact h rfl)

/-- Decidable equality for `Json` object field lists. -/
def Json.decEqFields : (as bs : List (String × Json)) → Decidable (as = bs)
  | [], [] => .isTrue rfl
  | [], _ :: _ => .isFalse nofun
  | _ :: _, [] => .isFalse nofun
  | (k, v) :: as, (k', v') :: bs =>
    if hk : k = k' then
      match Json.decEq v v' with
      | .isTrue hv =>
        match Json.decEqFields as bs with
        | .isTrue ht => .isTrue (by rw [hk, hv, ht])
        | .isFalse h => .isFalse (fun hh => by cases hh; exact h rfl)
      | .isFalse h => .isFalse (fun hh => by cases hh; exact h rfl)
    else .isFalse (fun hh => by cases hh; exact hk rfl)

end

instance : DecidableEq Json := Json.decEq

/-- JavaScript truthiness of an embedded value: `undefined` is handled at the
`Option` level by callers; among present values, `null`, `false`, `0` and the
empty string are falsy, every array and object is truthy. -/
def jsTruthy : Json → Bool
  | .null => false
  | .bool b => b
  | .num n => n != 0
  | .str s => s != ""
  | .arr _ => true
  | .obj _ => true

/-- JSON-RPC message id: `z.union([z.string(), z.number()])` in
`src/core/types.ts`. -/
inductive RpcId where
  | str (s : String)
  | num (n : Int)
deriving DecidableEq

/-- Embed an id back into the untyped value world. -/
def RpcId.toJson : RpcId → Json
  | .str s => Json.str s
  | .num n => Json.num n

/-- Association-list read, modelling `Map.get` / JavaScript property lookup
(first occurrence wins; JS maps and objects have unique keys). -/
def alGet {κ α : Type} [DecidableEq κ] (k : κ) : List (κ × α) → Option α
  | [] => none
  | (k', v) :: rest => if k' = k then some v else alGet k rest

/-- Association-list write, modelling `Map.set` / JS property assignment:
replace the first binding of the key in place, else append. -/
def alSet {κ α : Type} [DecidableEq κ] (k : κ) (v : α) : List (κ × α) → List (κ × α)
  | [] => [(k, v)]
  | (k', v') :: rest => if k' = k then (k', v) :: rest else (k', v') :: alSet k v rest

/-- Association-list delete, modelling `Map.delete`. -/
def alDel {κ α : Type} [DecidableEq κ] (k : κ) : List (κ × α) → List (κ × α)
  | [] => []
  | (k', v') :: rest => if k' = k then rest else (k', v') :: alDel k rest

/-- Wire-level JSON-RPC error object `{code, message, data?}` as validated by
`JsonRpcResponseSchema` and produced by `McpError.toJsonRpcError`. -/
structure ErrObj where
  code : Int
  message : String
  data : Option Json
deriving DecidableEq

/-- Embedding of the `McpError` class of `src/core/errors.ts`: a typed
protocol error carrying a code from the closed taxonomy, a message, and
optional data. -/
structure McpError where
  code : Int
  message : String
  data : Option Json
deriving DecidableEq

/-- Embedding of `McpError.toJsonRpcError`: the wire object always carries
code and message, and carries `data` only when `this.data` is truthy
(`if (this.data) error.data = this.data`), so present-but-falsy data values
are omitted. -/
def McpError.toJsonRpcError (e : McpError) : ErrObj :=
  { code := e.code
    message := e.message
    data :=
      match e.data with
      | some d => if jsTruthy d then some d else none
      | none => none }

/-- A decoded inbound message before classification: an untyped object whose
relevant properties may each be present or absent (`'field' in message`
corresponds to `Option.isSome`). -/
structure RawMessage where
  jsonrpc : Option Json
  id : Option Json
  method : Option Json
  params : Option Json
  result : Option Json
  error : Option Json
deriving DecidableEq

/-- Result of `JsonRpcRequestSchema.parse`: jsonrpc is the literal "2.0",
id is a string or number, method is a string, params is unvalidated. -/
structure JsonRpcRequestP where
  id : RpcId
  method : String
  params : Option Json
deriving DecidableEq

/-- Result of `JsonRpcResponseSchema.parse`: id may additionally be null;
result and error are each optional (the schema itself does not force
exactly one of them). -/
structure JsonRpcResponseP where
  id : Option RpcId
  result : Option Json
  error : Option ErrObj
deriving DecidableEq

/-- Result of `JsonRpcNotificationSchema.parse`. -/
structure JsonRpcNotificationP where
  method : String
  params : Option Json
deriving DecidableEq

/-- Parse a string-or-number id, per `z.union([z.string(), z.number()])`. -/
def parseId : Json → Option RpcId
  | .str s => some (RpcId.str s)
  | .num n => some (RpcId.num n)
  | _ => none

/-- Parse a string-or-number-or-null response id, per
`z.union([z.string(), z.number(), z.null()])`. -/
def parseNullableId : Json → Option (Option RpcId)
  | .null => some none
  | .str s => some (some (RpcId.str s))
  | .num n => some (some (RpcId.num n))
  | _ => none

/-- Parse the error object of a response: an object with a numeric `code`, a
string `message` and arbitrary optional `data` (zod strips unknown keys). -/
def parseErrObj : Json → Option ErrObj
  | .obj fields =>
    match alGet "code" fields, alGet "message" fields with
    | some (.num c), some (.str msg) => some { code := c, message := msg, data := alGet "data" fields }
    | _, _ => none
  | _ => none

/-- Embedding of `JsonRpcRequestSchema.parse` on a decoded message; `none`
models the thrown `z.ZodError`. -/
def parseRequest (m : RawMessage) : Option JsonRpcRequestP :=
  match m.jsonrpc, m.id, m.method with
  | some (.str "2.0"), some idj, some (.str mth) =>
    (parseId idj).map fun i => { id := i, method := mth, params := m.params }
  | _, _, _ => none

/-- Embedding of `JsonRpcResponseSchema.parse` on a decoded message. -/
def parseResponse (m : RawMessage) : Option JsonRpcResponseP :=
  match m.jsonrpc, m.id with
  | some (.str "2.0"), some idj =>
    match parseNullableId idj with
    | none => none
    | some oid =>
      match m.error with
      | none => some { id := oid, result := m.result, error := none }
      | some ej => (parseErrObj ej).map fun e => { id := oid, result := m.result, error := some e }
  | _, _ => none

/-- Embedding of `JsonRpcNotificationSchema.parse` on a decoded message. -/
def parseNotification (m : RawMessage) : Option JsonRpcNotificationP :=
  match m.jsonrpc, m.method with
  | some (.str "2.0"), some (.str mth) => some { method := mth, params := m.params }
  | _, _ => none

/-- A message handed to `transport.send`.  Each constructor corresponds to one
object literal in the source: `respOk` to the `{jsonrpc, id, result}` literal
of `sendResponse`, `respErr` to the `{jsonrpc, id: id ?? null, error}` literal
of `sendErrorResponse` (its id is the raw value, `none` meaning wire `null`),
`req` to `sendRequest`'s envelope and `note` to `sendNotification`'s. -/
inductive OutMsg where
  | req (id : RpcId) (method : String) (params : Option Json)
  | note (method : String) (params : Option Json)
  | respOk (id : RpcId) (result : Option Json)
  | respErr (id : Option Json) (error : ErrObj)
deriving DecidableEq

/-- Whether the sent message carries a `result` field (only the
`sendResponse` literal sets one). -/
def OutMsg.hasResultField : OutMsg → Bool
  | .respOk _ _ => true
  | _ => false

/-- Whether the sent message carries an `error` field (only the
`sendErrorResponse` literal sets one). -/
def OutMsg.hasErrorField : OutMsg → Bool
  | .respErr _ _ => true
  | _ => false

/-- The id field of a sent response (`some` iff the message is a response;
the inner value is the wire id, `none` meaning `null`). -/
def OutMsg.responseId : OutMsg → Option (Option Json)
  | .respOk i _ => some (some i.toJson)
  | .respErr i _ => some i
  | _ => none

/-- Outcome of invoking a request handler: the resolved value of its promise,
a thrown/rejected typed `McpError`, or an untyped failure carried as the
description the source reads via `error.message` / `String(error)`. -/
inductive HandlerOutcome where
  | ok (value : Option Json)
  | errMcp (e : McpError)
  | errOther (description : String)
deriving DecidableEq

/-- A registered request handler: receives `(params, id)` as in
`handler(request.params, request.id)`. -/
def Handler : Type := Option Json → RpcId → HandlerOutcome

/-- Outcome of invoking a notification handler. -/
inductive NotifyOutcome where
  | ok
  | err (description : String)
deriving DecidableEq

/-- A registered notification handler: receives `params` only. -/
def NotificationHandler : Type := Option Json → NotifyOutcome

/-- How a pending request's future got settled: `resolved` by
`pending.resolve(response.result)`, `rejected` by `pending.reject(new
McpError(...))` on an error response, or `rejectedTransport` by the
`.catch(reject)` attached to the transport send. -/
inductive Settlement where
  | resolved (value : Option Json)
  | rejected (e : McpError)
  | rejectedTransport (description : String)
deriving DecidableEq

/-- Observable local event: settlement of the future identified by a token,
or a `console.error` log entry. -/
inductive Event where
  | settle (tok : Nat) (s : Settlement)
  | log (context : String) (description : String)
deriving DecidableEq

/-- Mutable state of one `McpProtocol` instance: the outbound id counter, the
pending-request table keyed by id (each entry holding the token of the future
its resolve/reject pair settles; `nextTok` numbers the futures), and the two
handler tables. -/
structure ProtocolState where
  messageId : Int
  nextTok : Nat
  pendingRequests : List (RpcId × Nat)
  requestHandlers : List (String × Handler)
  notificationHandlers : List (String × NotificationHandler)

/-- Server identity and configuration (`McpServerOptions`): `capabilities` is
the optional override object, `instructions` the optional instructions
string. -/
structure McpServerOptions where
  name : String
  version : String
  capabilities : Option (List (String × Json))
  instructions : Option String

/-- Result of one processing step: the new protocol state, the messages given
to `transport.send` (in order), and the local events (settlements, logs). -/
structure StepResult where
  state : ProtocolState
  sent : List OutMsg
  events : List Event

/-- Stand-in for a serialized `z.ZodError` attached as error data.  No claim
inspects its contents; all that matters is that it is an object and hence
truthy, so it survives `toJsonRpcError`. -/
def zodErrorDetail : Json := Json.obj [("name", Json.str "ZodError")]

/-- The built-in default capabilities object literal of `handleInitialize`. -/
def defaultCapabilities : List (String × Json) :=
  [("logging", Json.obj []),
   ("prompts", Json.obj [("listChanged", Json.bool true)]),
   ("resources", Json.obj [("subscribe", Json.bool true), ("listChanged", Json.bool true)]),
   ("tools", Json.obj [("listChanged", Json.bool true)]),
   ("roots", Json.obj [("listChanged", Json.bool true)])]

/-- JavaScript object spread `{...base, ...overrides}`: each override key
replaces the base binding in place or is appended. -/
def spreadMerge (base overrides : List (String × Json)) : List (String × Json) :=
  overrides.foldl (fun acc kv => alSet kv.1 kv.2 acc) base

/-- Validation performed by `handleInitialize`'s inline zod schema: params
must be an object with a string `protocolVersion`, an object `capabilities`
(passthrough: any fields) and a `clientInfo` object with string `name` and
`version`. -/
def validInitializeParams : Option Json → Bool
  | some (Json.obj fields) =>
    (match alGet "protocolVersion" fields with
     | some (.str _) => true
     | _ => false) &&
    (match alGet "capabilities" fields with
     | some (.obj _) => true
     | _ => false) &&
    (match alGet "clientInfo" fields with
     | some (.obj ci) =>
       (match alGet "name" ci with
        | some (.str _) => true
        | _ => false) &&
       (match alGet "version" ci with
        | some (.str _) => true
        | _ => false)
     | _ => false)
  | _ => false

/-- The success value returned by `handleInitialize`: protocol version
literal, defaults spread-merged with the configured capability overrides, the
server identity, and `instructions` only when configured truthy
(`...(this.options.instructions && { instructions })`). -/
def initializeResult (opts : McpServerOptions) : Json :=
  Json.obj
    ([("protocolVersion", Json.str "2024-11-05"),
      ("capabilities", Json.obj (spreadMerge defaultCapabilities (opts.capabilities.getD []))),
      ("serverInfo", Json.obj [("name", Json.str opts.name), ("version", Json.str opts.version)])] ++
     (match opts.instructions with
      | some i => if i = "" then [] else [("instructions", Json.str i)]
      | none => []))

/-- Embedding of `McpProtocol.handleInitialize`: validate the params with the
inline schema, throwing `InvalidRequestError('Invalid initialize params',
parseResult.error)` on failure, else return the assembled result. -/
def handleInitialize (opts : McpServerOptions) (params : Option Json) : HandlerOutcome :=
  if validInitializeParams params then
    .ok (some (initializeResult opts))
  else
    .errMcp { code := -32600, message := "Invalid initialize params", data := some zodErrorDetail }

/-- Embedding of `McpProtocol.handleRequest`: look up the handler; with none,
send a MethodNotFound error response; otherwise invoke it and send one result
response, or one error response forwarding a typed `McpError` through
`toJsonRpcError`, or one InternalError response with the untyped failure's
description as data. -/
def handleRequest (st : ProtocolState) (request : JsonRpcRequestP) : List OutMsg × List Event :=
  match alGet request.method st.requestHandlers with
  | none =>
    ([OutMsg.respErr (some request.id.toJson)
        (McpError.toJsonRpcError
          { code := -32601, message := "Method not found: " ++ request.method, data := none })],
     [])
  | some handler =>
    match handler request.params request.id with
    | .ok v => ([OutMsg.respOk request.id v], [])
    | .errMcp e => ([OutMsg.respErr (some request.id.toJson) e.toJsonRpcError], [])
    | .errOther d =>
      ([OutMsg.respErr (some request.id.toJson)
          (McpError.toJsonRpcError
            { code := -32603, message := "Internal error", data := some (Json.str d) })],
       [])

/-- Embedding of `McpProtocol.handleResponse`: look up the pending entry by
the response id (a `null` id matches nothing); with none, return silently;
otherwise delete the entry and settle its future — reject with a
reconstructed `McpError` if the response carries an error object, else
resolve with the response's result. -/
def handleResponse (st : ProtocolState) (response : JsonRpcResponseP) :
    ProtocolState × List Event :=
  match response.id with
  | none => (st, [])
  | some rid =>
    match alGet rid st.pendingRequests with
    | none => (st, [])
    | some tok =>
      let st' := { st with pendingRequests := alDel rid st.pendingRequests }
      match response.error with
      | some e =>
        (st', [Event.settle tok (Settlement.rejected
          { code := e.code, message := e.message, data := e.data })])
      | none => (st', [Event.settle tok (Settlement.resolved response.result)])

/-- Embedding of `McpProtocol.handleNotification`: with no handler, drop
silently; otherwise invoke the handler, reporting any failure only to
`console.error`. -/
def handleNotification (st : ProtocolState) (n : JsonRpcNotificationP) : List Event :=
  match alGet n.method st.notificationHandlers with
  | none => []
  | some handler =>
    match handler n.params with
    | .ok => []
    | .err d => [Event.log ("Error handling notification " ++ n.method) d]

/-- Structural classification `isRequest`: has both an id and a method
field. -/
def isRequest (m : RawMessage) : Bool := m.id.isSome && m.method.isSome

/-- Structural classification `isResponse`: has an id and a result or error
field. -/
def isResponse (m : RawMessage) : Bool := m.id.isSome && (m.result.isSome || m.error.isSome)

/-- Structural classification `isNotification`: has a method field and no
id. -/
def isNotification (m : RawMessage) : Bool := m.method.isSome && !m.id.isSome

/-- An exception escaping `processMessage`: a `z.ZodError` thrown by a schema
`.parse`, a thrown `McpError`, or any other failure (the third branch of
`handleMessageError`; no path of the embedded `processMessage` produces
it). -/
inductive ProcessFailure where
  | zodError
  | mcpError (e : McpError)
  | otherFailure (description : String)
deriving DecidableEq

/-- Embedding of `McpProtocol.processMessage`: classify in the precedence
order Request, Response, Notification; parse with the matching schema
(failure throws a ZodError); dispatch to the matching handler; any other
shape throws `InvalidRequestError('Invalid message format')`. -/
def processMessage (st : ProtocolState) (m : RawMessage) : Except ProcessFailure StepResult :=
  if isRequest m then
    match parseRequest m with
    | none => .error .zodError
    | some request =>
      let (sent, events) := handleRequest st request
      .ok { state := st, sent := sent, events := events }
  else if isResponse m then
    match parseResponse m with
    | none => .error .zodError
    | some response =>
      let (st', events) := handleResponse st response
      .ok { state := st', sent := [], events := events }
  else if isNotification m then
    match parseNotification m with
    | none => .error .zodError
    | some n => .ok { state := st, sent := [], events := handleNotification st n }
  else
    .error (.mcpError { code := -32600, message := "Invalid message format", data := none })

/-- The id used by `handleMessageError`'s non-Zod branches:
`'id' in message ? message.id : null`, with `sendErrorResponse`'s `id ?? null`
collapsing a present `null` value to wire `null`. -/
def recoveredId (m : RawMessage) : Option Json :=
  match m.id with
  | some j => if j = Json.null then none else some j
  | none => none

/-- Embedding of `McpProtocol.handleMessageError`: a ZodError is answered
with `ParseError('Invalid JSON-RPC message', error)` addressed to `null`; a
thrown `McpError` is forwarded to the recovered id; anything else becomes an
InternalError with the failure's description as data, also addressed to the
recovered id. -/
def handleMessageError (m : RawMessage) (failure : ProcessFailure) : OutMsg :=
  match failure with
  | .zodError =>
    OutMsg.respErr none
      (McpError.toJsonRpcError
        { code := -32700, message := "Invalid JSON-RPC message", data := some zodErrorDetail })
  | .mcpError e => OutMsg.respErr (recoveredId m) e.toJsonRpcError
  | .otherFailure d =>
    OutMsg.respErr (recoveredId m)
      (McpError.toJsonRpcError
        { code := -32603, message := "Internal error", data := some (Json.str d) })

/-- Embedding of `McpProtocol.handleMessage`: run `processMessage` and turn
any escaping failure into a single error response; nothing propagates to the
transport's callback. -/
def handleMessage (st : ProtocolState) (m : RawMessage) : StepResult :=
  match processMessage st m with
  | .ok r => r
  | .error f => { state := st, sent := [handleMessageError m f], events := [] }

/-- Embedding of `McpProtocol.sendRequest`: allocate the next id with
`++this.messageId`, store the pending entry, then hand the envelope to
`transport.send`.  `transportFailure` tells whether that send rejects (with
the given error description): on rejection the `.catch(reject)` settles the
future and the envelope is not delivered; the pending entry is not touched in
either case. -/
def sendRequest (st : ProtocolState) (method : String) (params : Option Json)
    (transportFailure : Option String) : StepResult :=
  let id := st.messageId + 1
  let st' := { st with
    messageId := id
    pendingRequests := alSet (RpcId.num id) st.nextTok st.pendingRequests
    nextTok := st.nextTok + 1 }
  match transportFailure with
  | none => { state := st', sent := [OutMsg.req (RpcId.num id) method params], events := [] }
  | some d =>
    { state := st', sent := [],
      events := [Event.settle st.nextTok (Settlement.rejectedTransport d)] }

/-- The state built by the `McpProtocol` constructor: zeroed counters, empty
pending table, and the two core handlers installed by `setupCoreHandlers`
(the `initialize` request handler and the no-op `initialized` notification
handler). -/
def initialState (opts : McpServerOptions) : ProtocolState :=
  { messageId := 0
    nextTok := 0
    pendingRequests := []
    requestHandlers := alSet "initialize" (fun p _ => handleInitialize opts p) []
    notificationHandlers := alSet "initialized" (fun _ => NotifyOutcome.ok) [] }

/-- Embedding of `McpServer.handleSetLogLevel` (`src/core/server.ts`): with no
logging provider it throws `InvalidParamsError('Logging not supported')`;
otherwise it requires an object param with a `level` property and forwards to
the provider, whose rejection is an untyped failure. -/
def handleSetLogLevel (provider : Option (Json → Option String)) (params : Option Json) :
    HandlerOutcome :=
  match provider with
  | none => .errMcp { code := -32602, message := "Logging not supported", data := none }
  | some setLevel =>
    match params with
    | some (Json.obj fields) =>
      match alGet "level" fields with
      | some level =>
        match setLevel level with
        | none => .ok none
        | some d => .errOther d
      | none => .errMcp { code := -32602, message := "Missing required parameter: level", data := none }
    | _ => .errMcp { code := -32602, message := "Missing required parameter: level", data := none }

/-- Embedding of `McpServer.handleCreateMessage`: with no sampling provider it
throws `InvalidParamsError('Sampling not supported')`; otherwise it requires
an object param with a `messages` property and forwards the destructured
fields to the provider (abstracted here as a function of the whole params
object), whose rejection is an untyped failure. -/
def handleCreateMessage (provider : Option (Json → Except String Json)) (params : Option Json) :
    HandlerOutcome :=
  match provider with
  | none => .errMcp { code := -32602, message := "Sampling not supported", data := none }
  | some createMessage =>
    match params with
    | some (Json.obj fields) =>
      match alGet "messages" fields with
      | some _ =>
        match createMessage (Json.obj fields) with
        | .ok r => .ok (some r)
        | .error d => .errOther d
      | none => .errMcp { code := -32602, message := "Missing required parameter: messages", data := none }
    | _ => .errMcp { code := -32602, message := "Missing required parameter: messages", data := none }

/-! Association-list lemmas used by the claim proofs. -/

theorem alGet_alSet_self {κ α : Type} [DecidableEq κ] (k : κ) (v : α) (m : List (κ × α)) :
    alGet k (alSet k v m) = some v := by
  induction m with
  | nil => simp [alSet, alGet]
  | cons p rest ih =>
    obtain ⟨k', v'⟩ := p
    by_cases h : k' = k <;> simp [alSet, alGet, h, ih]

theorem alGet_alSet_ne {κ α : Type} [DecidableEq κ] {k k' : κ} (h : k' ≠ k) (v : α)
    (m : List (κ × α)) : alGet k (alSet k' v m) = alGet k m := by
  induction m with
  | nil => simp [alSet, alGet, h]
  | cons p rest ih =>
    obtain ⟨k'', v''⟩ := p
    by_cases h' : k'' = k' <;> by_cases h'' : k'' = k <;>
      simp_all [alSet, alGet]

theorem alGet_eq_none {κ α : Type} [DecidableEq κ] {k : κ} {m : List (κ × α)}
    (h : k ∉ m.map Prod.fst) : alGet k m = none := by
  induction m with
  | nil => rfl
  | cons p rest ih =>
    obtain ⟨k', v'⟩ := p
    simp only [List.map_cons, List.mem_cons] at h
    push_neg at h
    have hne : ¬k' = k := fun hh => h.1 hh.symm
    simp [alGet, hne, ih h.2]

/-- Lookup through a JavaScript object spread: for key-unique overrides (the
only kind a JS object can be), the override's binding wins and the base's
binding is used otherwise. -/
theorem alGet_spreadMerge {base overrides : List (String × Json)}
    (hnd : (overrides.map Prod.fst).Nodup) (k : String) :
    alGet k (spreadMerge base overrides) =
      match alGet k overrides with
      | some v => some v
      | none => alGet k base := by
  induction overrides generalizing base with
  | nil => simp [spreadMerge, alGet]
  | cons p rest ih =>
    obtain ⟨k1, v1⟩ := p
    simp only [List.map_cons, List.nodup_cons] at hnd
    obtain ⟨hk1, hrest⟩ := hnd
    have hstep : spreadMerge base ((k1, v1) :: rest) = spreadMerge (alSet k1 v1 base) rest := rfl
    rw [hstep, ih hrest]
    by_cases h : k1 = k
    · subst h
      rw [alGet_eq_none hk1]
      simp [alGet, alGet_alSet_self]
    · rw [alGet_alSet_ne h]
      simp [alGet, h]

/-- Accessor for a field of an embedded JS object value. -/
def objGet (k : String) : Json → Option Json
  | Json.obj fields => alGet k fields
  | _ => none

/-! Claim theorems. -/

/-- C1: an inbound well-formed Response whose id has a pending entry settles
exactly that entry's future — resolving with exactly the Response's result
when it carries no error object, rejecting with an error exposing the error
object's code/message/data when it does — and the settlement depends only on
the pending entry stored at that id, not on the rest of the pending table
(hence not on the arrival order of responses to other outstanding
requests). -/
theorem handleResponse_correlates_by_id (st st' : ProtocolState)
    (response : JsonRpcResponseP) (rid : RpcId) (tok : Nat)
    (hid : response.id = some rid)
    (hpend : alGet rid st.pendingRequests = some tok) :
    (handleResponse st response).2 =
      [Event.settle tok
        (match response.error with
         | some e => Settlement.rejected { code := e.code, message := e.message, data := e.data }
         | none => Settlement.resolved response.result)] ∧
    (alGet rid st'.pendingRequests = some tok →
      (handleResponse st' response).2 = (handleResponse st response).2) := by
  constructor
  · simp only [handleResponse, hid, hpend]
    cases response.error <;> rfl
  · intro hpend'
    simp only [handleResponse, hid, hpend, hpend']
    cases response.error <;> rfl

/-- Concrete run of C1: a pending request with id 1 (future token 0) is
resolved with exactly the result of a success Response with id 1. -/
theorem handleResponse_correlates_by_id_witness :
    alGet (RpcId.num 1)
      (ProtocolState.mk 1 1 [(RpcId.num 1, 0)] [] []).pendingRequests = some 0 ∧
    (handleResponse (ProtocolState.mk 1 1 [(RpcId.num 1, 0)] [] [])
      { id := some (RpcId.num 1), result := some (Json.num 42), error := none }).2 =
      [Event.settle 0 (Settlement.resolved (some (Json.num 42)))] :=
  ⟨rfl,
   (handleResponse_correlates_by_id
      (ProtocolState.mk 1 1 [(RpcId.num 1, 0)] [] [])
      (ProtocolState.mk 1 1 [(RpcId.num 1, 0)] [] [])
      { id := some (RpcId.num 1), result := some (Json.num 42), error := none }
      (RpcId.num 1) 0 rfl rfl).1⟩

/-- C2: processing an inbound well-formed Request whose method has a
registered handler sends exactly one message through the transport, a
Response carrying the Request's id and exactly one of a result field or an
error field, for every possible handler outcome. -/
theorem registered_request_yields_one_response (st : ProtocolState) (m : RawMessage)
    (request : JsonRpcRequestP) (h : Handler)
    (hcls : isRequest m = true)
    (hparse : parseRequest m = some request)
    (hhandler : alGet request.method st.requestHandlers = some h) :
    ∃ o : OutMsg,
      (handleMessage st m).sent = [o] ∧
      o.responseId = some (some request.id.toJson) ∧
      o.hasResultField ≠ o.hasErrorField := by
  simp only [handleMessage, processMessage, hcls, if_true, hparse, handleRequest, hhandler]
  cases hr : h request.params request.id with
  | ok v =>
    exact ⟨OutMsg.respOk request.id v, rfl, rfl, by simp [OutMsg.hasResultField, OutMsg.hasErrorField]⟩
  | errMcp e =>
    exact ⟨OutMsg.respErr (some request.id.toJson) e.toJsonRpcError, rfl, rfl,
      by simp [OutMsg.hasResultField, OutMsg.hasErrorField]⟩
  | errOther d =>
    exact ⟨OutMsg.respErr (some request.id.toJson)
      (McpError.toJsonRpcError { code := -32603, message := "Internal error", data := some (Json.str d) }),
      rfl, rfl, by simp [OutMsg.hasResultField, OutMsg.hasErrorField]⟩

/-- Concrete run of C2: the repository's own `custom/method` test — a
handler resolving `{success: true}` yields exactly one response with id 2
carrying a result field and no error field. -/
theorem registered_request_yields_one_response_witness :
    ∃ o : OutMsg,
      (handleMessage
        (ProtocolState.mk 0 0 []
          [("custom/method", fun _ _ => HandlerOutcome.ok (some (Json.obj [("success", Json.bool true)])))] [])
        { jsonrpc := some (Json.str "2.0"), id := some (Json.num 2),
          method := some (Json.str "custom/method"),
          params := some (Json.obj [("test", Json.str "data")]),
          result := none, error := none }).sent = [o] ∧
      o.responseId = some (some (Json.num 2)) ∧
      o.hasResultField ≠ o.hasErrorField :=
  registered_request_yields_one_response
    (ProtocolState.mk 0 0 []
      [("custom/method", fun _ _ => HandlerOutcome.ok (some (Json.obj [("success", Json.bool true)])))] [])
    { jsonrpc := some (Json.str "2.0"), id := some (Json.num 2),
      method := some (Json.str "custom/method"),
      params := some (Json.obj [("test", Json.str "data")]),
      result := none, error := none }
    { id := RpcId.num 2, method := "custom/method", params := some (Json.obj [("test", Json.str "data")]) }
    (fun _ _ => HandlerOutcome.ok (some (Json.obj [("success", Json.bool true)])))
    rfl rfl rfl

/-- C6: an inbound well-formed Response (no method field) whose id has no
pending entry — never allocated or already settled and removed — produces no
observable side effect: the handler neither throws nor sends anything, emits
no event, and leaves the whole protocol state (the pending table included)
unchanged. -/
theorem unmatched_response_no_side_effect (st : ProtocolState) (m : RawMessage)
    (response : JsonRpcResponseP)
    (hnomethod : m.method = none)
    (hcls : isResponse m = true)
    (hparse : parseResponse m = some response)
    (hpend : response.id.bind (fun rid => alGet rid st.pendingRequests) = none) :
    handleMessage st m = { state := st, sent := [], events := [] } := by
  have hreq : isRequest m = false := by simp [isRequest, hnomethod]
  have hresp : handleResponse st response = (st, []) := by
    unfold handleResponse
    cases hidv : response.id with
    | none => rfl
    | some rid =>
      rw [hidv] at hpend
      have hpend2 : alGet rid st.pendingRequests = none := hpend
      simp [hpend2]
  simp [handleMessage, processMessage, hreq, hcls, hparse, hresp]

/-- Concrete run of C6: a success Response with the never-allocated id 99
arriving at a fresh protocol instance changes nothing and sends nothing. -/
theorem unmatched_response_no_side_effect_witness :
    handleMessage
      (initialState { name := "test-server", version := "1.0.0", capabilities := none, instructions := none })
      { jsonrpc := some (Json.str "2.0"), id := some (Json.num 99), method := none,
        params := none, result := some (Json.str "late"), error := none } =
    { state := initialState { name := "test-server", version := "1.0.0", capabilities := none, instructions := none },
      sent := [], events := [] } :=
  unmatched_response_no_side_effect
    (initialState { name := "test-server", version := "1.0.0", capabilities := none, instructions := none })
    { jsonrpc := some (Json.str "2.0"), id := some (Json.num 99), method := none,
      params := none, result := some (Json.str "late"), error := none }
    { id := some (RpcId.num 99), result := some (Json.str "late"), error := none }
    rfl rfl rfl rfl

/-- C3 counterexample: on a fresh protocol instance, a `sendRequest` whose
transport send fails does reject the request's future (token 0) with the
transport error, but the pending entry for the allocated id 1 is still in the
pending-request table afterwards — `sendRequest` never deletes it — refuting
the claim that no entry for that id remains. -/
theorem sendRequest_failure_pending_entry_remains_cex :
    (sendRequest
      (initialState { name := "test-server", version := "1.0.0", capabilities := none, instructions := none })
      "test/method" none (some "channel down")).events =
      [Event.settle 0 (Settlement.rejectedTransport "channel down")] ∧
    alGet (RpcId.num 1)
      (sendRequest
        (initialState { name := "test-server", version := "1.0.0", capabilities := none, instructions := none })
        "test/method" none (some "channel down")).state.pendingRequests = some 0 :=
  ⟨rfl, rfl⟩

/-- C3 amended: when the transport's send of the Request envelope fails, the
returned future rejects with that transport error and nothing is delivered,
but the pending entry created for the request's id remains in the
pending-request table (the code performs no cleanup on send failure; the
caller owns it). -/
theorem sendRequest_failure_rejects_and_keeps_entry (st : ProtocolState) (method : String)
    (params : Option Json) (d : String) :
    (sendRequest st method params (some d)).events =
      [Event.settle st.nextTok (Settlement.rejectedTransport d)] ∧
    (sendRequest st method params (some d)).sent = [] ∧
    alGet (RpcId.num (st.messageId + 1))
      (sendRequest st method params (some d)).state.pendingRequests = some st.nextTok := by
  refine ⟨rfl, rfl, ?_⟩
  simp [sendRequest, alGet_alSet_self]

/-- C4 counterexample: a message with an id and a result field but no
`jsonrpc` marker is classified as a Response, fails schema validation, and is
answered with a Parse-Error response addressed to null — one message is sent
back through the transport, refuting the claim that the message is dropped
with nothing sent. -/
theorem invalid_response_not_dropped_cex :
    (handleMessage
      (initialState { name := "test-server", version := "1.0.0", capabilities := none, instructions := none })
      { jsonrpc := none, id := some (Json.num 7), method := none, params := none,
        result := some (Json.str "x"), error := none }).sent =
      [OutMsg.respErr none
        { code := -32700, message := "Invalid JSON-RPC message", data := some zodErrorDetail }] ∧
    [OutMsg.respErr none
      { code := -32700, message := "Invalid JSON-RPC message", data := some zodErrorDetail }] ≠
      ([] : List OutMsg) :=
  ⟨rfl, by simp⟩

/-- C4 amended: for every inbound message classified as a Response that fails
schema validation, processing is non-fatal — no exception propagates and the
protocol state is unchanged — but the message is not silently dropped: it is
answered like any schema failure, with a single Parse-Error response (code
-32700) addressed to id null. -/
theorem invalid_response_answered_with_parse_error (st : ProtocolState) (m : RawMessage)
    (hreq : isRequest m = false)
    (hcls : isResponse m = true)
    (hparse : parseResponse m = none) :
    handleMessage st m =
      { state := st,
        sent := [OutMsg.respErr none
          { code := -32700, message := "Invalid JSON-RPC message", data := some zodErrorDetail }],
        events := [] } := by
  simp [handleMessage, processMessage, hreq, hcls, hparse, handleMessageError,
    McpError.toJsonRpcError, zodErrorDetail, jsTruthy]

/-- Concrete run of the C4 amendment: the id-7 result message with no
`jsonrpc` marker gets exactly one Parse-Error response with id null and
leaves the state alone. -/
theorem invalid_response_answered_with_parse_error_witness :
    handleMessage
      (initialState { name := "test-server", version := "1.0.0", capabilities := none, instructions := none })
      { jsonrpc := none, id := some (Json.num 7), method := none, params := none,
        result := some (Json.str "x"), error := none } =
      { state := initialState { name := "test-server", version := "1.0.0", capabilities := none, instructions := none },
        sent := [OutMsg.respErr none
          { code := -32700, message := "Invalid JSON-RPC message", data := some zodErrorDetail }],
        events := [] } :=
  invalid_response_answered_with_parse_error
    (initialState { name := "test-server", version := "1.0.0", capabilities := none, instructions := none })
    { jsonrpc := none, id := some (Json.num 7), method := none, params := none,
      result := some (Json.str "x"), error := none }
    rfl rfl rfl

/-- C5 counterexample: the message `{jsonrpc: "2.0", id: 5, method: 3}` has a
perfectly recoverable id (5), is classified as a Request, and fails schema
validation (its method is not a string); the error response sent has id null,
refuting the claim that the error Response's id equals the inbound message's
id whenever one is recoverable. -/
theorem zod_failure_discards_recoverable_id_cex :
    ({ jsonrpc := some (Json.str "2.0"), id := some (Json.num 5), method := some (Json.num 3),
       params := none, result := none, error := none } : RawMessage).id = some (Json.num 5) ∧
    (handleMessage
      (initialState { name := "test-server", version := "1.0.0", capabilities := none, instructions := none })
      { jsonrpc := some (Json.str "2.0"), id := some (Json.num 5), method := some (Json.num 3),
        params := none, result := none, error := none }).sent =
      [OutMsg.respErr none
        { code := -32700, message := "Invalid JSON-RPC message", data := some zodErrorDetail }] :=
  ⟨rfl, rfl⟩

/-- C5 amended: the inbound message's id is recovered into the error
Response only for failures surfaced as typed errors — in particular a message
matching no shape is answered with Invalid Request (-32600) addressed to its
id when present (a present null id collapsing to null) — while schema (Zod)
validation failures are always answered with a Parse-Error (-32700) whose id
is null, even when the message carries a recoverable id. -/
theorem error_response_id_policy (st : ProtocolState) (m : RawMessage) :
    (isRequest m = false → isResponse m = false → isNotification m = false →
      (handleMessage st m).sent =
        [OutMsg.respErr (recoveredId m)
          { code := -32600, message := "Invalid message format", data := none }]) ∧
    (isRequest m = true → parseRequest m = none →
      (handleMessage st m).sent =
        [OutMsg.respErr none
          { code := -32700, message := "Invalid JSON-RPC message", data := some zodErrorDetail }]) := by
  constructor
  · intro h1 h2 h3
    simp [handleMessage, processMessage, h1, h2, h3, handleMessageError, McpError.toJsonRpcError]
  · intro h1 h2
    simp [handleMessage, processMessage, h1, h2, handleMessageError, McpError.toJsonRpcError,
      zodErrorDetail, jsTruthy]

/-- Concrete runs of the C5 amendment: a shapeless message with id 3 is
answered with Invalid Request at id 3, while the schema-invalid request with
id 5 is answered with a Parse-Error at id null. -/
theorem error_response_id_policy_witness :
    (handleMessage
      (initialState { name := "test-server", version := "1.0.0", capabilities := none, instructions := none })
      { jsonrpc := some (Json.str "2.0"), id := some (Json.num 3), method := none,
        params := none, result := none, error := none }).sent =
      [OutMsg.respErr (some (Json.num 3))
        { code := -32600, message := "Invalid message format", data := none }] ∧
    (handleMessage
      (initialState { name := "test-server", version := "1.0.0", capabilities := none, instructions := none })
      { jsonrpc := some (Json.str "2.0"), id := some (Json.num 5), method := some (Json.num 3),
        params := none, result := none, error := none }).sent =
      [OutMsg.respErr none
        { code := -32700, message := "Invalid JSON-RPC message", data := some zodErrorDetail }] :=
  ⟨(error_response_id_policy
      (initialState { name := "test-server", version := "1.0.0", capabilities := none, instructions := none })
      { jsonrpc := some (Json.str "2.0"), id := some (Json.num 3), method := none,
        params := none, result := none, error := none }).1 rfl rfl rfl,
   (error_response_id_policy
      (initialState { name := "test-server", version := "1.0.0", capabilities := none, instructions := none })
      { jsonrpc := some (Json.str "2.0"), id := some (Json.num 5), method := some (Json.num 3),
        params := none, result := none, error := none }).2 rfl rfl⟩

/-- C7 counterexample: a handler raising a typed `McpError` with the falsy
data value `false` is answered with an error response carrying no data field
at all — `toJsonRpcError`'s truthiness check (`if (this.data)`) drops it —
refuting the claim that a typed error's data reaches the peer untouched. -/
theorem typed_error_falsy_data_dropped_cex :
    (handleRequest
      (ProtocolState.mk 0 0 []
        [("custom/method", fun _ _ => HandlerOutcome.errMcp
          { code := -32602, message := "m", data := some (Json.bool false) })] [])
      { id := RpcId.num 1, method := "custom/method", params := none }).1 =
      [OutMsg.respErr (some (Json.num 1)) { code := -32602, message := "m", data := none }] ∧
    (some (Json.bool false) : Option Json) ≠ none :=
  ⟨rfl, by simp⟩

/-- C7 amended: a typed `McpError` raised in a request handler is forwarded
with its original code and message untouched and its data forwarded exactly
when the data is present and truthy (falsy values — false, 0, the empty
string, null — are omitted from the wire error object); an untyped failure is
answered with code -32603, the stable message "Internal error", and the
failure's description placed in the data field (itself omitted when empty),
never in the message field. -/
theorem request_failure_propagation_policy (st : ProtocolState) (request : JsonRpcRequestP)
    (h : Handler) (e : McpError) (d : String)
    (hhandler : alGet request.method st.requestHandlers = some h) :
    (h request.params request.id = HandlerOutcome.errMcp e →
      (handleRequest st request).1 =
        [OutMsg.respErr (some request.id.toJson)
          { code := e.code, message := e.message,
            data := match e.data with
              | some dd => if jsTruthy dd then some dd else none
              | none => none }]) ∧
    (h request.params request.id = HandlerOutcome.errOther d →
      (handleRequest st request).1 =
        [OutMsg.respErr (some request.id.toJson)
          { code := -32603, message := "Internal error",
            data := if d = "" then none else some (Json.str d) }]) := by
  constructor
  · intro hr
    simp [handleRequest, hhandler, hr, McpError.toJsonRpcError]
  · intro hr
    simp only [handleRequest, hhandler, hr, McpError.toJsonRpcError, jsTruthy]
    by_cases hd : d = "" <;> simp [hd]

/-- Concrete run of the C7 amendment: a typed `ResourceNotFound`-style error
with truthy string data reaches the wire with code, message and data
intact. -/
theorem request_failure_propagation_policy_witness :
    (handleRequest
      (ProtocolState.mk 0 0 []
        [("resources/read", fun _ _ => HandlerOutcome.errMcp
          { code := -32001, message := "Resource not found: file:///x", data := some (Json.str "detail") })] [])
      { id := RpcId.num 4, method := "resources/read", params := none }).1 =
      [OutMsg.respErr (some (Json.num 4))
        { code := -32001, message := "Resource not found: file:///x", data := some (Json.str "detail") }] :=
  (request_failure_propagation_policy
    (ProtocolState.mk 0 0 []
      [("resources/read", fun _ _ => HandlerOutcome.errMcp
        { code := -32001, message := "Resource not found: file:///x", data := some (Json.str "detail") })] [])
    { id := RpcId.num 4, method := "resources/read", params := none }
    (fun _ _ => HandlerOutcome.errMcp
      { code := -32001, message := "Resource not found: file:///x", data := some (Json.str "detail") })
    { code := -32001, message := "Resource not found: file:///x", data := some (Json.str "detail") }
    "unused" rfl).1 rfl

/-- C9: processing an inbound well-formed Notification — whatever
notification handler is registered for its method, including none at all or
one that fails — sends zero messages back through the transport, leaves the
protocol state unchanged, and surfaces a handler failure only as a local log
event. -/
theorem notification_never_answered (st : ProtocolState) (m : RawMessage)
    (n : JsonRpcNotificationP)
    (hcls : isNotification m = true)
    (hparse : parseNotification m = some n) :
    (handleMessage st m).sent = [] ∧
    (handleMessage st m).state = st ∧
    ∀ e ∈ (handleMessage st m).events, ∃ c d, e = Event.log c d := by
  have hid : m.id.isSome = false := by
    have hc := hcls
    simp only [isNotification, Bool.and_eq_true, Bool.not_eq_true'] at hc
    exact hc.2
  have hreq : isRequest m = false := by simp [isRequest, hid]
  have hresp : isResponse m = false := by simp [isResponse, hid]
  have hstep : handleMessage st m = { state := st, sent := [], events := handleNotification st n } := by
    simp [handleMessage, processMessage, hreq, hresp, hcls, hparse]
  rw [hstep]
  refine ⟨rfl, rfl, ?_⟩
  show ∀ e ∈ handleNotification st n, ∃ c d, e = Event.log c d
  unfold handleNotification
  cases halg : alGet n.method st.notificationHandlers with
  | none => simp
  | some handler =>
    cases hh : handler n.params with
    | ok => simp [hh]
    | err d =>
      simp only [hh]
      intro e he
      simp only [List.mem_singleton] at he
      exact ⟨_, _, he⟩

/-- Concrete run of C9: a notification whose registered handler fails sends
nothing back and produces only a log event. -/
theorem notification_never_answered_witness :
    (handleMessage
      (ProtocolState.mk 0 0 [] [] [("test/notification", fun _ => NotifyOutcome.err "boom")])
      { jsonrpc := some (Json.str "2.0"), id := none, method := some (Json.str "test/notification"),
        params := some (Json.obj [("data", Json.str "test")]), result := none, error := none }).sent = [] ∧
    (handleMessage
      (ProtocolState.mk 0 0 [] [] [("test/notification", fun _ => NotifyOutcome.err "boom")])
      { jsonrpc := some (Json.str "2.0"), id := none, method := some (Json.str "test/notification"),
        params := some (Json.obj [("data", Json.str "test")]), result := none, error := none }).state =
      ProtocolState.mk 0 0 [] [] [("test/notification", fun _ => NotifyOutcome.err "boom")] ∧
    ∀ e ∈ (handleMessage
      (ProtocolState.mk 0 0 [] [] [("test/notification", fun _ => NotifyOutcome.err "boom")])
      { jsonrpc := some (Json.str "2.0"), id := none, method := some (Json.str "test/notification"),
        params := some (Json.obj [("data", Json.str "test")]), result := none, error := none }).events,
      ∃ c d, e = Event.log c d :=
  notification_never_answered
    (ProtocolState.mk 0 0 [] [] [("test/notification", fun _ => NotifyOutcome.err "boom")])
    { jsonrpc := some (Json.str "2.0"), id := none, method := some (Json.str "test/notification"),
      params := some (Json.obj [("data", Json.str "test")]), result := none, error := none }
    { method := "test/notification", params := some (Json.obj [("data", Json.str "test")]) }
    rfl rfl

/-- C10 counterexample: with no logging (resp. sampling) provider configured,
`handleSetLogLevel` (resp. `handleCreateMessage`) fails with
`InvalidParamsError` — code -32602, message "Logging not supported" /
"Sampling not supported" — not with the CapabilityNotSupported error -32004
the claim names (that error class exists in `errors.ts` but these handlers
never use it). -/
theorem missing_provider_error_code_cex :
    handleSetLogLevel none (some (Json.obj [("level", Json.str "debug")])) =
      HandlerOutcome.errMcp { code := -32602, message := "Logging not supported", data := none } ∧
    handleCreateMessage none (some (Json.obj [("messages", Json.arr [])])) =
      HandlerOutcome.errMcp { code := -32602, message := "Sampling not supported", data := none } ∧
    (-32602 : Int) ≠ -32004 :=
  ⟨rfl, rfl, by decide⟩

/-- C10 amended: a `logging/setLevel` request with no logging provider, and a
`sampling/createMessage` request with no sampling provider, fail with an
InvalidParams error, code -32602 (messages "Logging not supported" and
"Sampling not supported"), whatever the request's params. -/
theorem missing_provider_invalid_params (params : Option Json) :
    handleSetLogLevel none params =
      HandlerOutcome.errMcp { code := -32602, message := "Logging not supported", data := none } ∧
    handleCreateMessage none params =
      HandlerOutcome.errMcp { code := -32602, message := "Sampling not supported", data := none } :=
  ⟨rfl, rfl⟩

/-- C8: an initialize request whose params carry a string protocolVersion, a
capabilities object and a clientInfo object with string name and version
succeeds with a result whose serverInfo is exactly the configured server
{name, version}, whose protocolVersion is the fixed "2024-11-05" literal, and
whose capabilities is the built-in defaults merged with the configured
overrides, the override binding winning for every overridden key (override
keys are unique, as they come from a JS object literal). -/
theorem initialize_valid_params_result (opts : McpServerOptions)
    (fields ci caps : List (String × Json)) (pv : String)
    (hpv : alGet "protocolVersion" fields = some (Json.str pv))
    (hcaps : alGet "capabilities" fields = some (Json.obj caps))
    (hci : alGet "clientInfo" fields = some (Json.obj ci))
    (hcn : ∃ cn, alGet "name" ci = some (Json.str cn))
    (hcv : ∃ cv, alGet "version" ci = some (Json.str cv))
    (hnd : ((opts.capabilities.getD []).map Prod.fst).Nodup) :
    ∃ r : Json,
      handleInitialize opts (some (Json.obj fields)) = HandlerOutcome.ok (some r) ∧
      objGet "serverInfo" r =
        some (Json.obj [("name", Json.str opts.name), ("version", Json.str opts.version)]) ∧
      objGet "protocolVersion" r = some (Json.str "2024-11-05") ∧
      ∃ merged : List (String × Json),
        objGet "capabilities" r = some (Json.obj merged) ∧
        ∀ k, alGet k merged =
          match alGet k (opts.capabilities.getD []) with
          | some v => some v
          | none => alGet k defaultCapabilities := by
  obtain ⟨cn, hcn⟩ := hcn
  obtain ⟨cv, hcv⟩ := hcv
  have hvalid : validInitializeParams (some (Json.obj fields)) = true := by
    simp [validInitializeParams, hpv, hcaps, hci, hcn, hcv]
  refine ⟨initializeResult opts, ?_,
    ?_, ?_, spreadMerge defaultCapabilities (opts.capabilities.getD []), ?_, ?_⟩
  · simp [handleInitialize, hvalid]
  · rfl
  · rfl
  · rfl
  · intro k
    exact alGet_spreadMerge hnd k

/-- Concrete run of C8: the repository's own initialize test extended with a
capability override `tools: {}`; the result reports the configured server
identity and the defaults with the tools entry replaced by the override. -/
theorem initialize_valid_params_result_witness :
    ((((McpServerOptions.mk "test-server" "1.0.0"
        (some [("tools", Json.obj [])]) none).capabilities.getD []).map Prod.fst).Nodup) ∧
    ∃ r : Json,
      handleInitialize
        (McpServerOptions.mk "test-server" "1.0.0" (some [("tools", Json.obj [])]) none)
        (some (Json.obj
          [("protocolVersion", Json.str "2024-11-05"),
           ("capabilities", Json.obj []),
           ("clientInfo", Json.obj [("name", Json.str "test-client"), ("version", Json.str "1.0.0")])])) =
        HandlerOutcome.ok (some r) ∧
      objGet "serverInfo" r =
        some (Json.obj [("name", Json.str "test-server"), ("version", Json.str "1.0.0")]) ∧
      objGet "protocolVersion" r = some (Json.str "2024-11-05") ∧
      ∃ merged : List (String × Json),
        objGet "capabilities" r = some (Json.obj merged) ∧
        ∀ k, alGet k merged =
          match alGet k (((McpServerOptions.mk "test-server" "1.0.0"
              (some [("tools", Json.obj [])]) none).capabilities).getD []) with
          | some v => some v
          | none => alGet k defaultCapabilities :=
  ⟨by decide,
   initialize_valid_params_result
     (McpServerOptions.mk "test-server" "1.0.0" (some [("tools", Json.obj [])]) none)
     [("protocolVersion", Json.str "2024-11-05"),
      ("capabilities", Json.obj []),
      ("clientInfo", Json.obj [("name", Json.str "test-client"), ("version", Json.str "1.0.0")])]
     [("name", Json.str "test-client"), ("version", Json.str "1.0.0")]
     [] "2024-11-05" rfl rfl rfl ⟨"test-client", rfl⟩ ⟨"1.0.0", rfl⟩ (by decide)⟩

end SMCP
